import Mathlib

/-!
Verification of the sequential tool-calling orchestration engine implemented in
src/backend/ai_generator.py (class AIGenerator).

The completion service is modelled as an oracle mapping the index of the call
(0-based, in the order calls are made) to the response it returns.  Every call
made to the service is recorded in a list of call records, so that theorems can
speak about how many calls were made, with which message log and which tools
advertised.  Raising of Python runtime errors by the attribute accesses
response.content[0].text is modelled by an Except error channel; tool faults
raised inside tool_manager.execute_tool are modelled by the tool manager
returning an Except.error value, mirroring the try/except in _execute_tools.
-/

namespace AIGen

/-- Python primitive values that can appear in the tool-result dictionaries. -/
inductive PyValue where
  | str (s : String)
  | bool (b : Bool)
  deriving DecidableEq

/-- Python runtime errors the source can raise at content[0].text:
IndexError when content is empty, AttributeError when content[0] has no
text attribute (it is a tool_use block). -/
inductive PyError where
  | indexError
  | attributeError
  deriving DecidableEq

/-- Argument mapping passed to a tool: the input dict of a tool_use block. -/
abbrev ToolInput := List (String × String)

/-- One content block of a completion-service response: a text block, or a
tool_use block carrying the correlation id, the tool name and the arguments. -/
inductive ContentBlock where
  | text (s : String)
  | toolUse (id : String) (name : String) (input : ToolInput)
  deriving DecidableEq

/-- A tool-result dictionary exactly as built in _execute_tools: a Python dict
with string keys. -/
abbrev ToolResultDict := List (String × PyValue)

/-- Content of a conversation message: the plain user query, the content
blocks of an assistant response, or the list of tool-result dictionaries sent
back as one user message. -/
inductive MessageContent where
  | text (s : String)
  | blocks (bs : List ContentBlock)
  | toolResults (rs : List ToolResultDict)
  deriving DecidableEq

/-- One entry of the message log passed to the completion service. -/
structure Message where
  role : String
  content : MessageContent
  deriving DecidableEq

/-- A completion-service response: a stop reason and a list of content blocks. -/
structure Response where
  stop_reason : String
  content : List ContentBlock
  deriving DecidableEq

/-- A tool definition dictionary; its contents are passed through opaquely by
the orchestration code. -/
abbrev ToolDef := List (String × PyValue)

/-- The tool manager: tool_manager.execute_tool receives the tool name and the
arguments; Except.error e models the call raising an exception whose str is e,
Except.ok r models it returning the string r. -/
abbrev ToolManager := String → ToolInput → Except String String

/-- Record of one call made to the completion service: the message list, the
system content, and the value of the tools key of api_params (none when the
key is absent, i.e. when no tools are advertised). -/
structure CallRecord where
  messages : List Message
  system : String
  toolsParam : Option (List ToolDef)
  deriving DecidableEq

/-- The completion service modelled as an oracle: the response returned to the
i-th call made during one generate_response invocation. -/
abbrev Oracle := Nat → Response

/-- Python truthiness of the tools argument in _make_api_call: the tools key is
added to api_params only when tools is a non-None, nonempty list. -/
def advertised (tools : Option (List ToolDef)) : Option (List ToolDef) :=
  match tools with
  | some ts => if ts.isEmpty then none else some ts
  | none => none

/-- Translation of _make_api_call: returns the response of the oracle at the
current call index and appends the record of the call. -/
def make_api_call (oracle : Oracle) (calls : List CallRecord) (messages : List Message)
    (system_content : String) (tools : Option (List ToolDef)) :
    Response × List CallRecord :=
  (oracle calls.length, calls ++ [⟨messages, system_content, advertised tools⟩])

/-- Models the expression response.content[0].text of the source: IndexError
on an empty content list, AttributeError when the first block is a tool_use
block (which has no text attribute). -/
def contentText : List ContentBlock → Except PyError String
  | [] => Except.error PyError.indexError
  | ContentBlock.text s :: _ => Except.ok s
  | ContentBlock.toolUse _ _ _ :: _ => Except.error PyError.attributeError

/-- The dictionary literal appended to tool_results in _execute_tools. -/
def toolResultEntry (id : String) (content : String) : ToolResultDict :=
  [("type", PyValue.str "tool_result"),
   ("tool_use_id", PyValue.str id),
   ("content", PyValue.str content)]

/-- One iteration of the for loop of _execute_tools: a text block contributes
nothing; a tool_use block contributes either the successful result or, when
execute_tool raises, the caught-error entry. -/
def toolResultOf (tool_manager : ToolManager) : ContentBlock → Option ToolResultDict
  | ContentBlock.text _ => none
  | ContentBlock.toolUse id name input =>
    match tool_manager name input with
    | Except.ok tool_result => some (toolResultEntry id tool_result)
    | Except.error e => some (toolResultEntry id ("Tool execution failed: " ++ e))

/-- Translation of _execute_tools: collect one result per tool_use block of
the response, in order; return None when no tools were executed. -/
def execute_tools (response : Response) (tool_manager : ToolManager) :
    Option (List ToolResultDict) :=
  let tool_results := response.content.filterMap (toolResultOf tool_manager)
  if tool_results.isEmpty then none else some tool_results

/-- The static system prompt of AIGenerator, verbatim from the source. -/
def SYSTEM_PROMPT : String :=
" You are an AI assistant specialized in course materials and educational content with access to comprehensive search tools for course information.

Available Tools:
1. **search_course_content** - For searching specific course content and detailed educational materials
2. **get_course_outline** - For getting complete course outlines including title, course link, and all lessons with numbers and titles

Tool Usage Guidelines:
- **Sequential tool calling**: You can use up to 2 sequential tool calls to gather comprehensive information
- **Tool reasoning**: First tool call can inform what additional information you need for a complete answer
- **Example workflow**: Get course outline first, then search for specific content within identified lessons
- **Course outline queries** (e.g., \"outline of X course\", \"lessons in Y course\"): Use get_course_outline tool
- **Content-specific questions**: Use search_course_content tool
- **General knowledge questions**: Answer using existing knowledge without tools
- **Tool combination**: You can search content first, then get outlines, or vice versa based on the query
- **Context awareness**: Consider results from previous tool calls when deciding on additional tools
- Synthesize tool results into accurate, fact-based responses
- If tools yield no results, state this clearly without offering alternatives

Response Protocol:
- **Course outline requests**: Use get_course_outline to return course title, course link, and complete lesson list
- **Course-specific content questions**: Use search_course_content first, then follow up with additional searches if needed
- **Complex queries**: Break down into multiple tool calls if needed to gather comprehensive information
- **No meta-commentary**:
 - Provide direct answers only â€” no reasoning process, tool explanations, or question-type analysis
 - Do not mention \"based on the search results\" or \"using the outline tool\"

All responses must be:
1. **Brief, Concise and focused** - Get to the point quickly
2. **Educational** - Maintain instructional value
3. **Clear** - Use accessible language
4. **Example-supported** - Include relevant examples when they aid understanding
Provide only the direct answer to what was asked.
"

/-- Translation of _build_system_content, with Python truthiness of the
optional history string (None and the empty string are both falsy). -/
def build_system_content (conversation_history : Option String) : String :=
  match conversation_history with
  | some h =>
    if h.isEmpty then SYSTEM_PROMPT
    else SYSTEM_PROMPT ++ "\n\nPrevious conversation:\n" ++ h
  | none => SYSTEM_PROMPT

/-- Fuel-indexed structural translation of the while loop of
_execute_sequential_rounds.  The fuel equals max_rounds - round_count, so the
loop guard round_count < max_rounds is the fuel being a successor, the
fuel-zero case is the fallback return after the loop, and the post-increment
check round_count >= max_rounds is the decremented fuel being zero. -/
def rounds_loop (oracle : Oracle) (system_content : String)
    (tools : Option (List ToolDef)) (tool_manager : ToolManager) :
    Nat → List Message → Response → List CallRecord →
      Except PyError String × List CallRecord
  | 0, _, current_response, calls =>
    ((if current_response.content.isEmpty then Except.ok "No response generated"
      else contentText current_response.content), calls)
  | remaining + 1, messages, current_response, calls =>
    if current_response.stop_reason ≠ "tool_use" then
      (contentText current_response.content, calls)
    else
      let messages1 :=
        messages ++ [⟨"assistant", MessageContent.blocks current_response.content⟩]
      match execute_tools current_response tool_manager with
      | none =>
        ((if current_response.content.isEmpty then Except.ok "Tool execution failed"
          else contentText current_response.content), calls)
      | some tool_results =>
        let messages2 := messages1 ++ [⟨"user", MessageContent.toolResults tool_results⟩]
        if remaining = 0 then
          let final := make_api_call oracle calls messages2 system_content none
          (contentText final.1.content, final.2)
        else
          let next := make_api_call oracle calls messages2 system_content tools
          rounds_loop oracle system_content tools tool_manager remaining messages2
            next.1 next.2

/-- Translation of _execute_sequential_rounds: enter the loop with a copy of
the initial messages, the initial response, and round_count = 0 (fuel =
max_rounds). -/
def execute_sequential_rounds (oracle : Oracle) (initial_response : Response)
    (system_content : String) (initial_messages : List Message)
    (tools : Option (List ToolDef)) (tool_manager : ToolManager)
    (max_rounds : Nat) (calls : List CallRecord) :
    Except PyError String × List CallRecord :=
  rounds_loop oracle system_content tools tool_manager max_rounds initial_messages
    initial_response calls

/-- Translation of generate_response: build the system content, make the
initial call, and run the sequential rounds when the response requests tool
use and a tool manager is present (Python truthiness of tool_manager). -/
def generate_response (oracle : Oracle) (query : String)
    (conversation_history : Option String) (tools : Option (List ToolDef))
    (tool_manager : Option ToolManager) (max_rounds : Nat) :
    Except PyError String × List CallRecord :=
  let system_content := build_system_content conversation_history
  let initial_messages : List Message := [⟨"user", MessageContent.text query⟩]
  let first := make_api_call oracle [] initial_messages system_content tools
  match tool_manager with
  | some tm =>
    if first.1.stop_reason = "tool_use" then
      execute_sequential_rounds oracle first.1 system_content initial_messages tools
        tm max_rounds first.2
    else
      (contentText first.1.content, first.2)
  | none => (contentText first.1.content, first.2)

/-- A response content list has a tool_use block. -/
def hasToolUse (bs : List ContentBlock) : Bool :=
  bs.any fun cb =>
    match cb with
    | ContentBlock.toolUse _ _ _ => true
    | _ => false

/-- Correlation ids of the tool_use blocks of a content list, in order. -/
def toolUseIds (bs : List ContentBlock) : List String :=
  bs.filterMap fun cb =>
    match cb with
    | ContentBlock.toolUse id _ _ => some id
    | _ => none

/-- A content list whose first block is a text block. -/
def beginsWithText (bs : List ContentBlock) : Bool :=
  match bs with
  | ContentBlock.text _ :: _ => true
  | _ => false

/-- A result that is a normally returned string, not a raised Python error. -/
def isOkResult : Except PyError String → Bool
  | Except.ok _ => true
  | Except.error _ => false

/-- The role expected after a message with role e in a strictly alternating
log. -/
def flipRole (e : String) : String :=
  if e == "user" then "assistant" else "user"

/-- The message log alternates roles starting from expected role e. -/
def rolesAlternateFrom (e : String) : List Message → Bool
  | [] => true
  | m :: ms => (m.role == e) && rolesAlternateFrom (flipRole e) ms

/-- The role expected for the next message appended after the log l, when the
log started with expected role e. -/
def expectedAt (e : String) : List Message → String
  | [] => e
  | _ :: ms => expectedAt (flipRole e) ms

/-- One call record extends another: its message list begins with the whole
message list of the other, in the same order. -/
def messagesExtend (a b : CallRecord) : Prop :=
  a.messages <+: b.messages

/-! Concrete fixtures used to exercise the embedded operations on closed runs. -/

/-- Fixture: a tool definition dictionary as advertised to the service. -/
def sampleToolDef : ToolDef := [("name", PyValue.str "search_course_content")]

/-- Fixture: a tool manager whose execute_tool always returns normally. -/
def tmOk : ToolManager := fun _ _ => Except.ok "Round results"

/-- Fixture: a tool manager whose execute_tool always raises. -/
def tmRaise : ToolManager := fun _ _ => Except.error "Database connection failed"

/-- Fixture: a tool-requesting response with a leading text block. -/
def rToolText : Response :=
  ⟨"tool_use", [ContentBlock.text "Let me search",
    ContentBlock.toolUse "tool_1" "search_course_content" [("query", "ml")]]⟩

/-- Fixture: a tool-requesting response whose only block is the tool_use block. -/
def rToolOnly : Response :=
  ⟨"tool_use", [ContentBlock.toolUse "tool_1" "search_course_content" [("query", "ml")]]⟩

/-- Fixture: a terminal response carrying only text. -/
def rFinal : Response := ⟨"end_turn", [ContentBlock.text "Final answer"]⟩

/-- Fixture: a tool-use stop reason with no tool_use block in the content. -/
def rNoBlocks : Response := ⟨"tool_use", [ContentBlock.text "partial answer"]⟩

/-- Fixture oracle: requests tool use on every call, with a leading text block. -/
def oracleAllTool : Oracle := fun _ => rToolText

/-- Fixture oracle: requests tool use on every call with no text block. -/
def oracleToolOnly : Oracle := fun _ => rToolOnly

/-- Fixture oracle: one tool round, then a terminal answer. -/
def oracleOneRound : Oracle := fun i => if i = 0 then rToolOnly else rFinal

/-- Fixture oracle: terminal on the first call. -/
def oracleDirect : Oracle := fun _ => rFinal

/-- Fixture oracle: tool-use stop reason but no tool blocks on every call. -/
def oracleNoBlocks : Oracle := fun _ => rNoBlocks

/-! Helper lemmas about the embedded operations. -/

lemma pref_trans {α : Type} {a b c : List α} (h1 : a <+: b) (h2 : b <+: c) : a <+: c := by
  obtain ⟨t1, rfl⟩ := h1
  obtain ⟨t2, rfl⟩ := h2
  exact ⟨t1 ++ t2, by simp⟩

lemma lookup_toolResultEntry_id (id c : String) :
    (toolResultEntry id c).lookup "tool_use_id" = some (PyValue.str id) := rfl

lemma lookup_toolResultEntry_content (id c : String) :
    (toolResultEntry id c).lookup "content" = some (PyValue.str c) := rfl

lemma lookup_toolResultEntry_is_error (id c : String) :
    (toolResultEntry id c).lookup "is_error" = none := rfl

lemma filterMap_toolResultOf_eq_nil_iff (tm : ToolManager) (bs : List ContentBlock) :
    bs.filterMap (toolResultOf tm) = [] ↔ hasToolUse bs = false := by
  induction bs with
  | nil => simp [hasToolUse]
  | cons b bs ih =>
    cases b with
    | text s => simpa [toolResultOf, hasToolUse, List.any_cons] using ih
    | toolUse id nm inp =>
      cases h : tm nm inp <;>
        simp [toolResultOf, hasToolUse, List.any_cons, h]

lemma execute_tools_of_hasToolUse (r : Response) (tm : ToolManager)
    (h : hasToolUse r.content = true) :
    execute_tools r tm = some (r.content.filterMap (toolResultOf tm)) := by
  have hne : r.content.filterMap (toolResultOf tm) ≠ [] := by
    intro hnil
    rw [filterMap_toolResultOf_eq_nil_iff] at hnil
    rw [h] at hnil
    exact absurd hnil (by decide)
  unfold execute_tools
  simp [List.isEmpty_iff, hne]

lemma filterMap_toolResultOf_ids (tm : ToolManager) (bs : List ContentBlock) :
    (bs.filterMap (toolResultOf tm)).map (fun d => d.lookup "tool_use_id")
      = (toolUseIds bs).map (fun i => some (PyValue.str i)) := by
  induction bs with
  | nil => rfl
  | cons b bs ih =>
    cases b with
    | text s => simpa [toolResultOf, toolUseIds] using ih
    | toolUse id nm inp =>
      cases h : tm nm inp <;>
        simp [toolResultOf, toolUseIds, h, lookup_toolResultEntry_id, ih]

lemma filterMap_toolResultOf_length (tm : ToolManager) (bs : List ContentBlock) :
    (bs.filterMap (toolResultOf tm)).length = (toolUseIds bs).length := by
  have := congrArg List.length (filterMap_toolResultOf_ids tm bs)
  simpa using this

lemma mem_filterMap_toolResultOf_of_error (tm : ToolManager) (bs : List ContentBlock)
    (id nm : String) (inp : ToolInput) (e : String)
    (hmem : ContentBlock.toolUse id nm inp ∈ bs) (herr : tm nm inp = Except.error e) :
    toolResultEntry id ("Tool execution failed: " ++ e) ∈ bs.filterMap (toolResultOf tm) := by
  refine List.mem_filterMap.mpr ⟨ContentBlock.toolUse id nm inp, hmem, ?_⟩
  simp [toolResultOf, herr]

lemma hasToolUse_of_mem (bs : List ContentBlock) (id nm : String) (inp : ToolInput)
    (hmem : ContentBlock.toolUse id nm inp ∈ bs) : hasToolUse bs = true := by
  unfold hasToolUse
  rw [List.any_eq_true]
  exact ⟨_, hmem, rfl⟩

lemma rounds_loop_calls_extend (o : Oracle) (sys : String) (tools : Option (List ToolDef))
    (tm : ToolManager) :
    ∀ (fuel : Nat) (msgs : List Message) (cur : Response) (calls : List CallRecord),
      ∃ new, (rounds_loop o sys tools tm fuel msgs cur calls).2 = calls ++ new := by
  intro fuel
  induction fuel with
  | zero =>
    intro msgs cur calls
    exact ⟨[], by simp [rounds_loop]⟩
  | succ r ih =>
    intro msgs cur calls
    rw [rounds_loop]
    split
    · exact ⟨[], by simp⟩
    · cases hex : execute_tools cur tm with
      | none => exact ⟨[], by simp⟩
      | some trs =>
        dsimp only
        by_cases hr : r = 0
        · subst hr
          exact ⟨_, rfl⟩
        · rw [if_neg hr]
          obtain ⟨new, hnew⟩ := ih
            (msgs ++ [⟨"assistant", MessageContent.blocks cur.content⟩] ++
              [⟨"user", MessageContent.toolResults trs⟩])
            (o calls.length)
            (calls ++ [⟨msgs ++ [⟨"assistant", MessageContent.blocks cur.content⟩] ++
              [⟨"user", MessageContent.toolResults trs⟩], sys, advertised tools⟩])
          refine ⟨[⟨msgs ++ [⟨"assistant", MessageContent.blocks cur.content⟩] ++
              [⟨"user", MessageContent.toolResults trs⟩], sys, advertised tools⟩] ++ new, ?_⟩
          simp only [make_api_call]
          rw [hnew]
          exact List.append_assoc _ _ _

lemma get?_concat_length {α : Type} (l : List α) (a : α) : (l ++ [a]).get? l.length = some a := by
  induction l with
  | nil => rfl
  | cons x xs ih => exact ih

lemma get?_append_left {α : Type} (l₁ l₂ : List α) (i : Nat) (h : i < l₁.length) :
    (l₁ ++ l₂).get? i = l₁.get? i := by
  induction l₁ generalizing i with
  | nil => simp at h
  | cons x xs ih =>
    cases i with
    | zero => rfl
    | succ j => simpa using ih j (by simpa using h)

lemma beginsWithText_spec (bs : List ContentBlock) (h : beginsWithText bs = true) :
    bs.isEmpty = false ∧ ∃ s, contentText bs = Except.ok s := by
  cases bs with
  | nil => simp [beginsWithText] at h
  | cons b t =>
    cases b with
    | text s => exact ⟨rfl, s, rfl⟩
    | toolUse id nm inp => simp [beginsWithText] at h

lemma rolesAlternateFrom_append (e : String) (l : List Message) (m : Message) :
    rolesAlternateFrom e (l ++ [m])
      = (rolesAlternateFrom e l && (m.role == expectedAt e l)) := by
  induction l generalizing e with
  | nil => simp [rolesAlternateFrom, expectedAt]
  | cons x xs ih => simp [rolesAlternateFrom, expectedAt, ih, Bool.and_assoc]

lemma expectedAt_append (e : String) (l : List Message) (m : Message) :
    expectedAt e (l ++ [m]) = flipRole (expectedAt e l) := by
  induction l generalizing e with
  | nil => simp [expectedAt]
  | cons x xs ih => simp [expectedAt, ih]

/-- When every oracle response requests tool use, the loop runs all its rounds:
starting with fuel rounds left and a tool-requesting current response, it makes
exactly fuel further completion-service calls, the last of them with no tools
advertised, and returns the text of the response to that last call. -/
lemma rounds_loop_all_tool (o : Oracle) (sys : String) (tools : Option (List ToolDef))
    (tm : ToolManager)
    (hall : ∀ i, (o i).stop_reason = "tool_use" ∧ hasToolUse (o i).content = true) :
    ∀ (fuel : Nat), 1 ≤ fuel →
      ∀ (msgs : List Message) (cur : Response) (calls : List CallRecord),
      cur.stop_reason = "tool_use" → hasToolUse cur.content = true →
      (rounds_loop o sys tools tm fuel msgs cur calls).1
          = contentText (o (calls.length + fuel - 1)).content
        ∧ (rounds_loop o sys tools tm fuel msgs cur calls).2.length = calls.length + fuel
        ∧ ((rounds_loop o sys tools tm fuel msgs cur calls).2.getLast?).map CallRecord.toolsParam
            = some none := by
  intro fuel
  induction fuel with
  | zero => intro h; omega
  | succ r ih =>
    intro _ msgs cur calls hstop htu
    rw [rounds_loop]
    rw [if_neg (show ¬cur.stop_reason ≠ "tool_use" from fun hne => hne hstop)]
    rw [execute_tools_of_hasToolUse cur tm htu]
    dsimp only
    by_cases hr : r = 0
    · subst hr
      refine ⟨?_, ?_, ?_⟩
      · simp [make_api_call]
      · simp [make_api_call]
      · simp [make_api_call, List.getLast?_concat, advertised]
    · rw [if_neg hr]
      simp only [make_api_call]
      set M2 := msgs ++ [⟨"assistant", MessageContent.blocks cur.content⟩] ++
        [⟨"user", MessageContent.toolResults (cur.content.filterMap (toolResultOf tm))⟩] with hM2
      set C2 := calls ++ [⟨M2, sys, advertised tools⟩] with hC2
      obtain ⟨h1, h2, h3⟩ := ih (Nat.one_le_iff_ne_zero.mpr hr) M2 (o calls.length) C2
        (hall calls.length).1 (hall calls.length).2
      have hlen : C2.length = calls.length + 1 := by
        rw [hC2]
        simp
      have hidx : C2.length + r - 1 = calls.length + (r + 1) - 1 := by
        rw [hlen]
        omega
      refine ⟨?_, ?_, ?_⟩
      · rw [h1, hidx]
      · rw [h2, hlen]
        omega
      · exact h3

/-- The loop makes at most fuel further completion-service calls, and when it
makes exactly fuel of them (with positive fuel), the last call advertises no
tools. -/
lemma rounds_loop_length_bound (o : Oracle) (sys : String) (tools : Option (List ToolDef))
    (tm : ToolManager) :
    ∀ (fuel : Nat) (msgs : List Message) (cur : Response) (calls : List CallRecord),
      (rounds_loop o sys tools tm fuel msgs cur calls).2.length ≤ calls.length + fuel
      ∧ ((rounds_loop o sys tools tm fuel msgs cur calls).2.length = calls.length + fuel →
          1 ≤ fuel →
          ((rounds_loop o sys tools tm fuel msgs cur calls).2.getLast?).map CallRecord.toolsParam
            = some none) := by
  intro fuel
  induction fuel with
  | zero =>
    intro msgs cur calls
    exact ⟨by simp [rounds_loop], fun _ h => by omega⟩
  | succ r ih =>
    intro msgs cur calls
    rw [rounds_loop]
    split
    · exact ⟨by simp, fun heq _ => by simp at heq⟩
    · cases hex : execute_tools cur tm with
      | none => exact ⟨by simp, fun heq _ => by simp at heq⟩
      | some trs =>
        dsimp only
        by_cases hr : r = 0
        · subst hr
          refine ⟨by simp [make_api_call], fun _ _ => ?_⟩
          simp [make_api_call, List.getLast?_concat, advertised]
        · rw [if_neg hr]
          simp only [make_api_call]
          obtain ⟨b1, b2⟩ := ih
            (msgs ++ [⟨"assistant", MessageContent.blocks cur.content⟩] ++
              [⟨"user", MessageContent.toolResults trs⟩])
            (o calls.length)
            (calls ++ [⟨msgs ++ [⟨"assistant", MessageContent.blocks cur.content⟩] ++
              [⟨"user", MessageContent.toolResults trs⟩], sys, advertised tools⟩])
          constructor
          · simp only [List.length_append, List.length_cons, List.length_nil] at b1 ⊢
            omega
          · intro heq _
            refine b2 ?_ (Nat.one_le_iff_ne_zero.mpr hr)
            simp only [List.length_append, List.length_cons, List.length_nil] at heq ⊢
            omega

/-- The loop preserves the message-log invariants: the calls made so far form
a chain in which each message list extends the previous one, every recorded
message list alternates roles starting from user, the last recorded list is a
prefix of the current one, and the current list alternates and expects an
assistant message next. -/
lemma rounds_loop_chain (o : Oracle) (sys : String) (tools : Option (List ToolDef))
    (tm : ToolManager) :
    ∀ (fuel : Nat) (msgs : List Message) (cur : Response) (calls : List CallRecord),
      List.Chain' messagesExtend calls →
      (∀ a ∈ calls, rolesAlternateFrom "user" a.messages = true) →
      (∀ a, calls.getLast? = some a → a.messages <+: msgs) →
      rolesAlternateFrom "user" msgs = true →
      expectedAt "user" msgs = "assistant" →
      List.Chain' messagesExtend (rounds_loop o sys tools tm fuel msgs cur calls).2
      ∧ ∀ a ∈ (rounds_loop o sys tools tm fuel msgs cur calls).2,
          rolesAlternateFrom "user" a.messages = true := by
  intro fuel
  induction fuel with
  | zero => intro msgs cur calls hch hall _ _ _; exact ⟨hch, hall⟩
  | succ r ih =>
    intro msgs cur calls hch hall hlast halt hexp
    have halt1 : rolesAlternateFrom "user"
        (msgs ++ [⟨"assistant", MessageContent.blocks cur.content⟩]) = true := by
      rw [rolesAlternateFrom_append, halt, hexp]
      rfl
    have hexp1 : expectedAt "user"
        (msgs ++ [⟨"assistant", MessageContent.blocks cur.content⟩]) = "user" := by
      rw [expectedAt_append, hexp]
      rfl
    rw [rounds_loop]
    split
    · exact ⟨hch, hall⟩
    · cases hex : execute_tools cur tm with
      | none => exact ⟨hch, hall⟩
      | some trs =>
        dsimp only
        have halt2 : rolesAlternateFrom "user"
            (msgs ++ [⟨"assistant", MessageContent.blocks cur.content⟩] ++
              [⟨"user", MessageContent.toolResults trs⟩]) = true := by
          rw [rolesAlternateFrom_append, halt1, hexp1]
          rfl
        have hexp2 : expectedAt "user"
            (msgs ++ [⟨"assistant", MessageContent.blocks cur.content⟩] ++
              [⟨"user", MessageContent.toolResults trs⟩]) = "assistant" := by
          rw [expectedAt_append, hexp1]
          rfl
        have hpref : msgs <+: msgs ++ [⟨"assistant", MessageContent.blocks cur.content⟩] ++
            [⟨"user", MessageContent.toolResults trs⟩] := by
          refine ⟨[⟨"assistant", MessageContent.blocks cur.content⟩,
            ⟨"user", MessageContent.toolResults trs⟩], ?_⟩
          simp
        have hchain1 : ∀ (tp : Option (List ToolDef)),
            List.Chain' messagesExtend (calls ++
              [⟨msgs ++ [⟨"assistant", MessageContent.blocks cur.content⟩] ++
                [⟨"user", MessageContent.toolResults trs⟩], sys, tp⟩]) := by
          intro tp
          refine List.Chain'.append hch (List.chain'_singleton _) ?_
          intro x hx y hy
          simp only [List.head?_cons, Option.mem_def, Option.some.injEq] at hy
          subst hy
          exact pref_trans (hlast x (by simpa using hx)) hpref
        have hall1 : ∀ (tp : Option (List ToolDef)),
            ∀ a ∈ calls ++
              [⟨msgs ++ [⟨"assistant", MessageContent.blocks cur.content⟩] ++
                [⟨"user", MessageContent.toolResults trs⟩], sys, tp⟩],
              rolesAlternateFrom "user" a.messages = true := by
          intro tp a ha
          rcases List.mem_append.mp ha with h | h
          · exact hall a h
          · simp only [List.mem_singleton] at h
            subst h
            exact halt2
        by_cases hr : r = 0
        · subst hr
          exact ⟨hchain1 _, hall1 _⟩
        · rw [if_neg hr]
          simp only [make_api_call]
          refine ih _ (o calls.length) _ (hchain1 _) (hall1 _) ?_ halt2 hexp2
          intro a ha
          rw [List.getLast?_concat] at ha
          cases ha
          exact ⟨[], by simp⟩

/-- When every oracle response begins with a text block, every return path of
the loop yields a normally returned string whenever the current response also
begins with a text block. -/
lemma rounds_loop_ok (o : Oracle) (sys : String) (tools : Option (List ToolDef))
    (tm : ToolManager) (hall : ∀ i, beginsWithText (o i).content = true) :
    ∀ (fuel : Nat) (msgs : List Message) (cur : Response) (calls : List CallRecord),
      beginsWithText cur.content = true →
      isOkResult (rounds_loop o sys tools tm fuel msgs cur calls).1 = true := by
  intro fuel
  induction fuel with
  | zero =>
    intro msgs cur calls hbt
    obtain ⟨hne, s, hs⟩ := beginsWithText_spec cur.content hbt
    simp [rounds_loop, hne, hs, isOkResult]
  | succ r ih =>
    intro msgs cur calls hbt
    obtain ⟨hne, s, hs⟩ := beginsWithText_spec cur.content hbt
    rw [rounds_loop]
    split
    · simp [hs, isOkResult]
    · cases hex : execute_tools cur tm with
      | none => simp [hne, hs, isOkResult]
      | some trs =>
        dsimp only
        by_cases hr : r = 0
        · subst hr
          obtain ⟨_, s2, hs2⟩ := beginsWithText_spec (o calls.length).content (hall calls.length)
          simp [make_api_call, hs2, isOkResult]
        · rw [if_neg hr]
          simp only [make_api_call]
          exact ih _ (o calls.length) _ (hall calls.length)

lemma rounds_loop_length_lower (o : Oracle) (sys : String) (tools : Option (List ToolDef))
    (tm : ToolManager) (fuel : Nat) (msgs : List Message) (cur : Response)
    (calls : List CallRecord) :
    calls.length ≤ (rounds_loop o sys tools tm fuel msgs cur calls).2.length := by
  obtain ⟨new, hnew⟩ := rounds_loop_calls_extend o sys tools tm fuel msgs cur calls
  rw [hnew]
  simp

/-! Theorems corresponding to the claims. -/

/-- C1: for every positive round limit N, if generate_response is called with
tools and a tool manager and the completion service requests tool use in every
response, then exactly N+1 completion-service calls are made, the final call
advertises no tools, and the text of the final response (the response to call
N) is returned regardless of whether it again requests tools. -/
theorem c1_forced_final_call (o : Oracle) (q : String) (hist : Option String)
    (tds : List ToolDef) (tm : ToolManager) (N : Nat) (hN : 1 ≤ N)
    (hall : ∀ i, (o i).stop_reason = "tool_use" ∧ hasToolUse (o i).content = true) :
    (generate_response o q hist (some tds) (some tm) N).2.length = N + 1
    ∧ ((generate_response o q hist (some tds) (some tm) N).2.getLast?).map CallRecord.toolsParam
        = some none
    ∧ (generate_response o q hist (some tds) (some tm) N).1 = contentText (o N).content := by
  obtain ⟨hl1, hl2, hl3⟩ := rounds_loop_all_tool o (build_system_content hist) (some tds) tm hall
    N hN [⟨"user", MessageContent.text q⟩] (o 0)
    [⟨[⟨"user", MessageContent.text q⟩], build_system_content hist, advertised (some tds)⟩]
    (hall 0).1 (hall 0).2
  simp only [List.length_cons, List.length_nil, Nat.zero_add] at hl1 hl2
  have hidx : 1 + N - 1 = N := by omega
  rw [hidx] at hl1
  simp only [generate_response, execute_sequential_rounds, make_api_call, List.length_nil,
    List.nil_append]
  rw [if_pos (hall 0).1]
  refine ⟨?_, hl3, hl1⟩
  rw [hl2]
  omega

/-- C2: for every round limit N of at least one and every oracle, tool set and
tool manager, generate_response makes at most N+1 completion-service calls,
and when it makes exactly N+1 (the round limit was hit while tool use was
still requested), the last of them is the forced call advertising no tools.
Termination itself is witnessed by generate_response being a total function. -/
theorem c2_call_bound (o : Oracle) (q : String) (hist : Option String)
    (tools : Option (List ToolDef)) (tm : Option ToolManager) (N : Nat) (hN : 1 ≤ N) :
    (generate_response o q hist tools tm N).2.length ≤ N + 1
    ∧ ((generate_response o q hist tools tm N).2.length = N + 1 →
        ((generate_response o q hist tools tm N).2.getLast?).map CallRecord.toolsParam
          = some none) := by
  cases tm with
  | none =>
    constructor
    · show (1 : Nat) ≤ N + 1
      omega
    · intro heq
      have h1 : (1 : Nat) = N + 1 := heq
      omega
  | some tm =>
    by_cases hstop : (o 0).stop_reason = "tool_use"
    · obtain ⟨b1, b2⟩ := rounds_loop_length_bound o (build_system_content hist) tools tm N
        [⟨"user", MessageContent.text q⟩] (o 0)
        [⟨[⟨"user", MessageContent.text q⟩], build_system_content hist, advertised tools⟩]
      simp only [List.length_cons, List.length_nil, Nat.zero_add] at b1 b2
      simp only [generate_response, execute_sequential_rounds, make_api_call, List.length_nil,
        List.nil_append]
      rw [if_pos hstop]
      constructor
      · refine le_trans b1 ?_
        omega
      · intro heq
        exact b2 (by omega) hN
    · simp only [generate_response, make_api_call, List.length_nil, List.nil_append]
      rw [if_neg hstop]
      constructor
      · show (1 : Nat) ≤ N + 1
        omega
      · intro heq
        have h1 : (1 : Nat) = N + 1 := heq
        omega

/-- C2 witness: a concrete run with round limit 1 in which the bound is tight
and the last call advertises no tools. -/
theorem c2_witness :
    (generate_response oracleAllTool "q" none (some [sampleToolDef]) (some tmOk) 1).2.length ≤ 1 + 1
    ∧ ((generate_response oracleAllTool "q" none (some [sampleToolDef]) (some tmOk) 1).2.getLast?).map
        CallRecord.toolsParam = some none :=
  ⟨(c2_call_bound oracleAllTool "q" none (some [sampleToolDef]) (some tmOk) 1 (by decide)).1,
   (c2_call_bound oracleAllTool "q" none (some [sampleToolDef]) (some tmOk) 1 (by decide)).2
     (by decide)⟩

/-- C1 witness: a concrete all-tool-use run checked against the exact
conclusions of C1 for N = 1. -/
theorem c1_witness :
    (generate_response oracleAllTool "q" none (some [sampleToolDef]) (some tmOk) 1).2.length = 1 + 1
    ∧ ((generate_response oracleAllTool "q" none (some [sampleToolDef]) (some tmOk) 1).2.getLast?).map
        CallRecord.toolsParam = some none
    ∧ (generate_response oracleAllTool "q" none (some [sampleToolDef]) (some tmOk) 1).1
        = contentText (oracleAllTool 1).content :=
  c1_forced_final_call oracleAllTool "q" none [sampleToolDef] tmOk 1 (by decide)
    (fun _ => ⟨rfl, rfl⟩)

/-- C3 counterexample: a tool fault is converted into a result dictionary that
carries only the type, tool_use_id and content keys; the claimed is_error
field is absent (no is_error key exists, so it is not true). -/
theorem c3_counterexample :
    execute_tools rToolOnly tmRaise
      = some [toolResultEntry "tool_1" ("Tool execution failed: " ++ "Database connection failed")]
    ∧ (toolResultEntry "tool_1" ("Tool execution failed: " ++ "Database connection failed")).lookup
        "is_error" = none
    ∧ ((toolResultEntry "tool_1" ("Tool execution failed: " ++ "Database connection failed")).map
        Prod.fst = ["type", "tool_use_id", "content"]) :=
  ⟨rfl, rfl, rfl⟩

/-- C3 (amended): whenever a dispatched tool raises during a round, the fault
is caught and converted into a tool-result dictionary keyed to the request
correlation id whose content is "Tool execution failed: <cause>"; the
dictionary carries no is_error field (the source sets only type, tool_use_id
and content). -/
theorem c3_amended (r : Response) (tm : ToolManager) (id nm : String) (inp : ToolInput)
    (e : String) (hmem : ContentBlock.toolUse id nm inp ∈ r.content)
    (herr : tm nm inp = Except.error e) :
    execute_tools r tm = some (r.content.filterMap (toolResultOf tm))
    ∧ toolResultEntry id ("Tool execution failed: " ++ e) ∈ r.content.filterMap (toolResultOf tm)
    ∧ (toolResultEntry id ("Tool execution failed: " ++ e)).lookup "tool_use_id"
        = some (PyValue.str id)
    ∧ (toolResultEntry id ("Tool execution failed: " ++ e)).lookup "content"
        = some (PyValue.str ("Tool execution failed: " ++ e))
    ∧ (toolResultEntry id ("Tool execution failed: " ++ e)).lookup "is_error" = none :=
  ⟨execute_tools_of_hasToolUse r tm (hasToolUse_of_mem r.content id nm inp hmem),
   mem_filterMap_toolResultOf_of_error tm r.content id nm inp e hmem herr,
   lookup_toolResultEntry_id id _, lookup_toolResultEntry_content id _,
   lookup_toolResultEntry_is_error id _⟩

/-- C3 witness: the amended statement at a concrete failing tool call. -/
theorem c3_witness :
    execute_tools rToolOnly tmRaise
      = some (rToolOnly.content.filterMap (toolResultOf tmRaise))
    ∧ toolResultEntry "tool_1" ("Tool execution failed: " ++ "Database connection failed")
        ∈ rToolOnly.content.filterMap (toolResultOf tmRaise)
    ∧ (toolResultEntry "tool_1" ("Tool execution failed: " ++ "Database connection failed")).lookup
        "tool_use_id" = some (PyValue.str "tool_1")
    ∧ (toolResultEntry "tool_1" ("Tool execution failed: " ++ "Database connection failed")).lookup
        "content"
        = some (PyValue.str ("Tool execution failed: " ++ "Database connection failed"))
    ∧ (toolResultEntry "tool_1" ("Tool execution failed: " ++ "Database connection failed")).lookup
        "is_error" = none :=
  c3_amended rToolOnly tmRaise "tool_1" "search_course_content" [("query", "ml")]
    "Database connection failed" (by decide) rfl

/-- C4: whenever the first completion-service response has a stop reason other
than tool use, exactly one completion-service call occurs and the returned
answer is the text of that response. -/
theorem c4_direct_answer (o : Oracle) (q : String) (hist : Option String)
    (tools : Option (List ToolDef)) (tm : Option ToolManager) (N : Nat)
    (hstop : (o 0).stop_reason ≠ "tool_use") :
    (generate_response o q hist tools tm N).1 = contentText (o 0).content
    ∧ (generate_response o q hist tools tm N).2.length = 1 := by
  cases tm with
  | none => exact ⟨rfl, rfl⟩
  | some tm =>
    simp only [generate_response, make_api_call, List.length_nil, List.nil_append]
    rw [if_neg hstop]
    exact ⟨rfl, rfl⟩

/-- C4 witness: a concrete terminal first response. -/
theorem c4_witness :
    (generate_response oracleDirect "q" none (some [sampleToolDef]) (some tmOk) 2).1
      = contentText (oracleDirect 0).content
    ∧ (generate_response oracleDirect "q" none (some [sampleToolDef]) (some tmOk) 2).2.length = 1 :=
  c4_direct_answer oracleDirect "q" none (some [sampleToolDef]) (some tmOk) 2 (by decide)

/-- C5 counterexample: a run in which the only tool dispatch raises; the
fault is caught (the run completes the round and reaches three
completion-service calls), yet the round loop does not complete to a final
answer string: the forced final response is a bare tool_use block and the
text access on it raises AttributeError to the caller. -/
theorem c5_counterexample :
    tmRaise "search_course_content" [("query", "ml")]
      = Except.error "Database connection failed"
    ∧ (generate_response oracleToolOnly "q" none (some [sampleToolDef]) (some tmRaise) 2).1
        = Except.error PyError.attributeError
    ∧ (generate_response oracleToolOnly "q" none (some [sampleToolDef]) (some tmRaise) 2).2.length
        = 3 :=
  ⟨rfl, rfl, rfl⟩

/-- C5 (amended): when some tool dispatch of the first round raises, the
corresponding result content contains the literal substring "Tool execution
failed" (it is a prefix of the content), and the round loop completes the
failed round rather than propagating the tool exception: generate_response
goes on to make at least a second completion-service call, and it completes
to a final answer string provided every completion-service response begins
with a text block (absent that proviso the text access on the final response
can itself raise, which is never the tool fault). -/
theorem c5_tool_fault_round_completes (o : Oracle) (q : String) (hist : Option String)
    (tools : Option (List ToolDef)) (tm : ToolManager) (id nm : String) (inp : ToolInput)
    (e : String) (N : Nat) (hN : 1 ≤ N)
    (hstop : (o 0).stop_reason = "tool_use")
    (hmem : ContentBlock.toolUse id nm inp ∈ (o 0).content)
    (herr : tm nm inp = Except.error e)
    (hall : ∀ i, beginsWithText (o i).content = true) :
    toolResultEntry id ("Tool execution failed: " ++ e)
        ∈ (o 0).content.filterMap (toolResultOf tm)
    ∧ "Tool execution failed".data <+: ("Tool execution failed: " ++ e).data
    ∧ 2 ≤ (generate_response o q hist tools (some tm) N).2.length
    ∧ isOkResult (generate_response o q hist tools (some tm) N).1 = true := by
  refine ⟨mem_filterMap_toolResultOf_of_error tm (o 0).content id nm inp e hmem herr, ?_, ?_, ?_⟩
  · have h1 : "Tool execution failed".data <+: "Tool execution failed: ".data :=
      ⟨[':', ' '], by decide⟩
    have h2 : ("Tool execution failed: " ++ e).data
        = "Tool execution failed: ".data ++ e.data := by
      cases e
      rfl
    rw [h2]
    exact pref_trans h1 ⟨e.data, rfl⟩
  · obtain ⟨r, rfl⟩ : ∃ r, N = r + 1 := ⟨N - 1, by omega⟩
    simp only [generate_response, execute_sequential_rounds, make_api_call, List.length_nil,
      List.nil_append]
    rw [if_pos hstop, rounds_loop]
    rw [if_neg (show ¬(o 0).stop_reason ≠ "tool_use" from fun hne => hne hstop)]
    rw [execute_tools_of_hasToolUse (o 0) tm (hasToolUse_of_mem (o 0).content id nm inp hmem)]
    dsimp only
    by_cases hr : r = 0
    · subst hr
      rw [if_pos rfl]
      simp [make_api_call]
    · rw [if_neg hr]
      simp only [make_api_call]
      refine le_trans ?_ (rounds_loop_length_lower _ _ _ _ _ _ _ _)
      simp
  · simp only [generate_response, execute_sequential_rounds, make_api_call, List.length_nil,
      List.nil_append]
    rw [if_pos hstop]
    exact rounds_loop_ok o (build_system_content hist) tools tm hall N
      [⟨"user", MessageContent.text q⟩] (o 0)
      [⟨[⟨"user", MessageContent.text q⟩], build_system_content hist, advertised tools⟩]
      (hall 0)

/-- C5 witness: a concrete run whose responses begin with text and whose only
tool raises; the failed-result entry is present, the loop reaches a second
completion-service call, and the run still ends in an answer string. -/
theorem c5_witness :
    toolResultEntry "tool_1" ("Tool execution failed: " ++ "Database connection failed")
        ∈ (oracleAllTool 0).content.filterMap (toolResultOf tmRaise)
    ∧ "Tool execution failed".data
        <+: ("Tool execution failed: " ++ "Database connection failed").data
    ∧ 2 ≤ (generate_response oracleAllTool "q" none (some [sampleToolDef]) (some tmRaise) 2).2.length
    ∧ isOkResult (generate_response oracleAllTool "q" none (some [sampleToolDef])
        (some tmRaise) 2).1 = true :=
  c5_tool_fault_round_completes oracleAllTool "q" none (some [sampleToolDef]) tmRaise
    "tool_1" "search_course_content" [("query", "ml")] "Database connection failed" 2
    (by decide) rfl (by decide) rfl (fun _ => rfl)

/-- C6: within one generate_response call, the message lists passed to the
successive completion-service calls form a chain in which each list extends
the previous one without reordering or dropping entries, every list
alternates roles strictly user, assistant, user, ..., and the first call
carries the single user query message. -/
theorem c6_message_log (o : Oracle) (q : String) (hist : Option String)
    (tools : Option (List ToolDef)) (tm : Option ToolManager) (N : Nat) :
    List.Chain' messagesExtend (generate_response o q hist tools tm N).2
    ∧ (∀ a ∈ (generate_response o q hist tools tm N).2,
        rolesAlternateFrom "user" a.messages = true)
    ∧ ((generate_response o q hist tools tm N).2.head?).map CallRecord.messages
        = some [⟨"user", MessageContent.text q⟩] := by
  have haltq : rolesAlternateFrom "user" [(⟨"user", MessageContent.text q⟩ : Message)] = true := by
    simp [rolesAlternateFrom]
  have hexpq : expectedAt "user" [(⟨"user", MessageContent.text q⟩ : Message)] = "assistant" := rfl
  cases tm with
  | none =>
    refine ⟨List.chain'_singleton _, ?_, rfl⟩
    intro a ha
    simp only [generate_response, make_api_call, List.nil_append, List.mem_singleton] at ha
    subst ha
    exact haltq
  | some tm =>
    by_cases hstop : (o 0).stop_reason = "tool_use"
    · simp only [generate_response, execute_sequential_rounds, make_api_call, List.length_nil,
        List.nil_append]
      rw [if_pos hstop]
      obtain ⟨hc, hm⟩ := rounds_loop_chain o (build_system_content hist) tools tm N
        [⟨"user", MessageContent.text q⟩] (o 0)
        [⟨[⟨"user", MessageContent.text q⟩], build_system_content hist, advertised tools⟩]
        (List.chain'_singleton _)
        (by
          intro a ha
          simp only [List.mem_singleton] at ha
          subst ha
          exact haltq)
        (by
          intro a ha
          simp only [List.getLast?_singleton, Option.some.injEq] at ha
          subst ha
          exact ⟨[], by simp⟩)
        haltq hexpq
      refine ⟨hc, hm, ?_⟩
      obtain ⟨new, hnew⟩ := rounds_loop_calls_extend o (build_system_content hist) tools tm N
        [⟨"user", MessageContent.text q⟩] (o 0)
        [⟨[⟨"user", MessageContent.text q⟩], build_system_content hist, advertised tools⟩]
      rw [hnew]
      rfl
    · simp only [generate_response, make_api_call, List.length_nil, List.nil_append]
      rw [if_neg hstop]
      refine ⟨List.chain'_singleton _, ?_, rfl⟩
      intro a ha
      simp only [List.mem_singleton] at ha
      subst ha
      exact haltq

/-- C6 witness: in a concrete two-call run, the message list of the second
call alternates user, assistant, user. -/
theorem c6_witness :
    rolesAlternateFrom "user" ([⟨"user", MessageContent.text "q"⟩,
      ⟨"assistant", MessageContent.blocks rToolOnly.content⟩,
      ⟨"user", MessageContent.toolResults [toolResultEntry "tool_1" "Round results"]⟩] :
        List Message) = true :=
  (c6_message_log oracleOneRound "q" none (some [sampleToolDef]) (some tmOk) 2).2.1
    ⟨[⟨"user", MessageContent.text "q"⟩,
      ⟨"assistant", MessageContent.blocks rToolOnly.content⟩,
      ⟨"user", MessageContent.toolResults [toolResultEntry "tool_1" "Round results"]⟩],
      build_system_content none, advertised (some [sampleToolDef])⟩
    (List.mem_cons_of_mem _ (List.mem_cons_self _ _))

/-- C7: for every tool-requesting response handled inside an active round,
exactly one tool result is produced per tool_use block, each result echoes the
correlation id of its request, the results keep the order of the requests, and
all of them are appended as one user message (right after the assistant
message) in the message list of the next completion-service call. -/
theorem c7_one_result_per_request (o : Oracle) (sys : String) (tools : Option (List ToolDef))
    (tm : ToolManager) (r : Nat) (msgs : List Message) (cur : Response)
    (calls : List CallRecord)
    (hstop : cur.stop_reason = "tool_use") (htu : hasToolUse cur.content = true) :
    execute_tools cur tm = some (cur.content.filterMap (toolResultOf tm))
    ∧ (cur.content.filterMap (toolResultOf tm)).map (fun d => d.lookup "tool_use_id")
        = (toolUseIds cur.content).map (fun i => some (PyValue.str i))
    ∧ (cur.content.filterMap (toolResultOf tm)).length = (toolUseIds cur.content).length
    ∧ ((rounds_loop o sys tools tm (r + 1) msgs cur calls).2.get? calls.length).map
        CallRecord.messages
      = some (msgs ++ [⟨"assistant", MessageContent.blocks cur.content⟩] ++
          [⟨"user", MessageContent.toolResults (cur.content.filterMap (toolResultOf tm))⟩]) := by
  refine ⟨execute_tools_of_hasToolUse cur tm htu, filterMap_toolResultOf_ids tm cur.content,
    filterMap_toolResultOf_length tm cur.content, ?_⟩
  rw [rounds_loop]
  rw [if_neg (show ¬cur.stop_reason ≠ "tool_use" from fun hne => hne hstop)]
  rw [execute_tools_of_hasToolUse cur tm htu]
  dsimp only
  by_cases hr : r = 0
  · subst hr
    rw [if_pos rfl]
    simp only [make_api_call]
    rw [get?_concat_length]
    rfl
  · rw [if_neg hr]
    simp only [make_api_call]
    obtain ⟨new, hnew⟩ := rounds_loop_calls_extend o sys tools tm r
      (msgs ++ [⟨"assistant", MessageContent.blocks cur.content⟩] ++
        [⟨"user", MessageContent.toolResults (cur.content.filterMap (toolResultOf tm))⟩])
      (o calls.length)
      (calls ++ [⟨msgs ++ [⟨"assistant", MessageContent.blocks cur.content⟩] ++
        [⟨"user", MessageContent.toolResults (cur.content.filterMap (toolResultOf tm))⟩],
        sys, advertised tools⟩])
    rw [hnew]
    have hlt : calls.length < (calls ++ [(⟨msgs ++
        [⟨"assistant", MessageContent.blocks cur.content⟩] ++
        [⟨"user", MessageContent.toolResults (cur.content.filterMap (toolResultOf tm))⟩],
        sys, advertised tools⟩ : CallRecord)]).length := by
      simp
    rw [get?_append_left _ _ _ hlt, get?_concat_length]
    rfl

/-- C7 witness: a concrete round with one tool request, showing the single
echoed result and the message list of the next call. -/
theorem c7_witness :
    execute_tools rToolOnly tmOk = some (rToolOnly.content.filterMap (toolResultOf tmOk))
    ∧ (rToolOnly.content.filterMap (toolResultOf tmOk)).map (fun d => d.lookup "tool_use_id")
        = (toolUseIds rToolOnly.content).map (fun i => some (PyValue.str i))
    ∧ (rToolOnly.content.filterMap (toolResultOf tmOk)).length
        = (toolUseIds rToolOnly.content).length
    ∧ ((rounds_loop oracleOneRound "sys" (some [sampleToolDef]) tmOk (1 + 1)
          [⟨"user", MessageContent.text "q"⟩] rToolOnly []).2.get?
        (List.length ([] : List CallRecord))).map CallRecord.messages
      = some ([⟨"user", MessageContent.text "q"⟩] ++
          [⟨"assistant", MessageContent.blocks rToolOnly.content⟩] ++
          [⟨"user", MessageContent.toolResults (rToolOnly.content.filterMap (toolResultOf tmOk))⟩]) :=
  c7_one_result_per_request oracleOneRound "sys" (some [sampleToolDef]) tmOk 1
    [⟨"user", MessageContent.text "q"⟩] rToolOnly [] rfl rfl

/-- C8: when the tool-use response of an active round yields no tool results
at all, the round loop aborts with no further completion-service call and the
answer is the text of that response, or the fixed fallback string when its
content is empty. -/
theorem c8_no_results_abort (o : Oracle) (q : String) (hist : Option String)
    (tools : Option (List ToolDef)) (tm : ToolManager) (N : Nat) (hN : 1 ≤ N)
    (hstop : (o 0).stop_reason = "tool_use")
    (hnone : execute_tools (o 0) tm = none) :
    (generate_response o q hist tools (some tm) N).2.length = 1
    ∧ (generate_response o q hist tools (some tm) N).1
        = (if (o 0).content.isEmpty then Except.ok "Tool execution failed"
           else contentText (o 0).content) := by
  obtain ⟨r, rfl⟩ : ∃ r, N = r + 1 := ⟨N - 1, by omega⟩
  simp only [generate_response, execute_sequential_rounds, make_api_call, List.length_nil,
    List.nil_append]
  rw [if_pos hstop, rounds_loop]
  rw [if_neg (show ¬(o 0).stop_reason ≠ "tool_use" from fun hne => hne hstop)]
  rw [hnone]
  exact ⟨rfl, rfl⟩

/-- C8 witness: a concrete tool-use response with no tool blocks aborts after
one call and returns its partial text. -/
theorem c8_witness :
    (generate_response oracleNoBlocks "q" none (some [sampleToolDef]) (some tmOk) 2).2.length = 1
    ∧ (generate_response oracleNoBlocks "q" none (some [sampleToolDef]) (some tmOk) 2).1
        = (if (oracleNoBlocks 0).content.isEmpty then Except.ok "Tool execution failed"
           else contentText (oracleNoBlocks 0).content) :=
  c8_no_results_abort oracleNoBlocks "q" none (some [sampleToolDef]) tmOk 2
    (by decide) rfl rfl

/-- C9: when the first response requests tool use but no tool manager was
provided, generate_response returns the text of the first content block of
that response after exactly one completion-service call, entering no tool
round. -/
theorem c9_no_tool_manager (o : Oracle) (q : String) (hist : Option String)
    (tools : Option (List ToolDef)) (N : Nat) (s : String) (rest : List ContentBlock)
    (_hstop : (o 0).stop_reason = "tool_use")
    (hcontent : (o 0).content = ContentBlock.text s :: rest) :
    (generate_response o q hist tools none N).1 = Except.ok s
    ∧ (generate_response o q hist tools none N).2.length = 1 := by
  constructor
  · show contentText (o 0).content = Except.ok s
    rw [hcontent]
    rfl
  · rfl

/-- C9 witness: a concrete tool-use response handled without a tool manager. -/
theorem c9_witness :
    (generate_response oracleAllTool "q" none (some [sampleToolDef]) none 2).1
      = Except.ok "Let me search"
    ∧ (generate_response oracleAllTool "q" none (some [sampleToolDef]) none 2).2.length = 1 :=
  c9_no_tool_manager oracleAllTool "q" none (some [sampleToolDef]) 2 "Let me search"
    [ContentBlock.toolUse "tool_1" "search_course_content" [("query", "ml")]] rfl rfl

/-- C10 counterexample: with round limit 1, every response of this oracle has
one content block and the hypothesis on responses whose stop reason is not
tool_use holds vacuously, yet generate_response raises AttributeError at the
forced final call, whose response starts with a tool_use block. -/
theorem c10_counterexample :
    (generate_response oracleToolOnly "q" none (some [sampleToolDef]) (some tmOk) 1).1
      = Except.error PyError.attributeError
    ∧ rToolOnly.content.isEmpty = false
    ∧ rToolOnly.stop_reason = "tool_use" :=
  ⟨rfl, rfl, rfl⟩

/-- C10 (amended): for every round limit of at least one and every oracle
whose responses each begin with a text block (also those with a tool-use stop
reason, since the forced final call reads the text of the first block
regardless of the stop reason), generate_response never raises: it returns a
string on every path. -/
theorem c10_amended_no_raise (o : Oracle) (q : String) (hist : Option String)
    (tools : Option (List ToolDef)) (tm : Option ToolManager) (N : Nat) (_hN : 1 ≤ N)
    (hall : ∀ i, beginsWithText (o i).content = true) :
    isOkResult (generate_response o q hist tools tm N).1 = true := by
  obtain ⟨hne, s, hs⟩ := beginsWithText_spec (o 0).content (hall 0)
  cases tm with
  | none =>
    show isOkResult (contentText (o 0).content) = true
    rw [hs]
    rfl
  | some tm =>
    by_cases hstop : (o 0).stop_reason = "tool_use"
    · simp only [generate_response, execute_sequential_rounds, make_api_call, List.length_nil,
        List.nil_append]
      rw [if_pos hstop]
      exact rounds_loop_ok o (build_system_content hist) tools tm hall N
        [⟨"user", MessageContent.text q⟩] (o 0)
        [⟨[⟨"user", MessageContent.text q⟩], build_system_content hist, advertised tools⟩]
        (hall 0)
    · simp only [generate_response, make_api_call, List.length_nil, List.nil_append]
      rw [if_neg hstop]
      show isOkResult (contentText (o 0).content) = true
      rw [hs]
      rfl

/-- C10 witness: a concrete all-tool-use run whose responses begin with text
returns a string. -/
theorem c10_witness :
    isOkResult (generate_response oracleAllTool "q" none (some [sampleToolDef])
      (some tmOk) 1).1 = true :=
  c10_amended_no_raise oracleAllTool "q" none (some [sampleToolDef]) (some tmOk) 1
    (by decide) (fun _ => rfl)

end AIGen
